import Mathlib

/-
  Verification of the bootc-image-builder-action build orchestrator
  (src/bib.ts) against its natural-language specification.

  The TypeScript source is shallowly embedded: JS string operations are
  modelled over the character list underlying a Lean String with the exact
  JS semantics used by the source (split on a single character, Array.pop,
  Array.join, String.trim, endsWith, template-literal concatenation, and
  string truthiness).  Effectful calls (process execution, readdir,
  checksum streaming, path.resolve, filesystem preparation) are supplied
  by an explicit environment record; the orchestrator is a total function
  from that environment and the options record to a result, a list of
  issued process invocations, and a list of reported failure messages.
-/

/-! ## JS string semantics helpers -/

/-- Auxiliary splitter: JS s.split(sep) for a single-character separator,
over the character list, with an accumulator of the current segment
(kept in reverse). -/
def splitChAux (sep : Char) : List Char → List Char → List String
  | [], acc => [String.mk acc.reverse]
  | c :: cs, acc =>
    if c == sep then String.mk acc.reverse :: splitChAux sep cs []
    else splitChAux sep cs (c :: acc)

/-- JS s.split(sep) for a single-character separator.  Always returns a
nonempty list; "".split(sep) is [""]. -/
def jsSplit (sep : Char) (s : String) : List String :=
  splitChAux sep s.data []

/-- JS Array.join(sep). -/
def joinSep (sep : String) : List String → String
  | [] => ""
  | [s] => s
  | s :: t :: r => s ++ sep ++ joinSep sep (t :: r)

/-- JS Array.pop() on a list of strings: the last element ("" when the
array is empty, a case that never arises on split results). -/
def jsPop : List String → String
  | [] => ""
  | [s] => s
  | _ :: t :: r => jsPop (t :: r)

/-- The last sep-delimited segment of a string: s.split(sep).pop(). -/
def jsLastSeg (sep : Char) (s : String) : String :=
  jsPop (jsSplit sep s)

/-- JS string truthiness: every string except "" is truthy. -/
def truthy (s : String) : Bool :=
  !(s == "")

/-- JS String.trim(): strip whitespace from both ends. -/
def jsTrim (s : String) : String :=
  String.mk (((s.data.dropWhile Char.isWhitespace).reverse.dropWhile
    Char.isWhitespace).reverse)

/-- JS String.endsWith(suffix). -/
def jsEndsWith (suffix s : String) : Bool :=
  List.isSuffixOf suffix.data s.data

/-- Boolean list-level test: the first list starts the second. -/
def isPref : List Char → List Char → Bool
  | [], _ => true
  | _ :: _, [] => false
  | a :: as, b :: bs => a == b && isPref as bs

/-- Boolean substring test over character lists. -/
def listContains (pat : List Char) : List Char → Bool
  | [] => isPref pat []
  | c :: cs => isPref pat (c :: cs) || listContains pat cs

/-- String starts-with test via the character lists. -/
def strHasPref (p s : String) : Bool :=
  isPref p.data s.data

/-- String substring test via the character lists. -/
def strContains (pat s : String) : Bool :=
  listContains pat.data s.data

/-- A POSIX filesystem-absolute path: first character is a slash. -/
def isAbsolutePath (s : String) : Bool :=
  match s.data with
  | [] => false
  | c :: _ => c == '/'

/-! ## Data model (from src/bib.ts interfaces) -/

/-- AWSOptions from src/bib.ts. -/
structure AWSOptions where
  AMIName : String
  BucketName : String
  Region : Option String := none
deriving DecidableEq

/-- BootcImageBuilderOptions from src/bib.ts. -/
structure BootcImageBuilderOptions where
  configFilePath : String
  image : String
  builderImage : String
  additionalArgs : Option String := none
  chown : Option String := none
  rootfs : Option String := none
  tlsVerify : Bool
  types : Option (List String) := none
  awsOptions : Option AWSOptions := none
deriving DecidableEq

/-- OutputArtifact from src/bib.ts. -/
structure OutputArtifact where
  type : String
  path : String
  checksum : Option String := none
deriving DecidableEq

/-- One entry of fs.readdir(dir, recursive, withFileTypes): base name,
parent directory path, and the regular-file flag. -/
structure Dirent where
  name : String
  parentPath : String
  isFile : Bool
deriving DecidableEq

/-- BootcImageBuilderOutputs from src/bib.ts; the JS Map is modelled as
an association list in insertion order. -/
structure BootcImageBuilderOutputs where
  manifestPath : String
  outputDirectory : String
  outputArtifacts : List (String × OutputArtifact)
deriving DecidableEq

/-- One invocation handed to execAsRoot. -/
structure ExecCall where
  exe : String
  args : List String
deriving DecidableEq

/-- The effectful collaborators of the orchestrator: environment
preparation, output-directory creation, process execution, the recursive
directory walk, checksum streaming, and path.resolve. -/
structure Env where
  prepare : Except String Unit
  mkdir : Except String Unit
  exec : List String → Except String Unit
  readdir : Except String (List Dirent)
  checksum : String → Except String String
  resolve : String → String

/-! ## Argument synthesis (build, src/bib.ts lines 64-118) -/

/-- The in-container mount name of the config file: a fixed "/config."
stem followed by the last dot-delimited segment of the source path
(the template /config. followed by configFilePath.split(sep).pop()). -/
def configMountName (opts : BootcImageBuilderOptions) : String :=
  "/config." ++ jsLastSeg '.' opts.configFilePath

/-- The config-file bind-mount argument pushed onto podmanArgs. -/
def configMountArg (opts : BootcImageBuilderOptions) : String :=
  "--volume " ++ opts.configFilePath ++ ":/config." ++
    jsLastSeg '.' opts.configFilePath ++ ":ro"

/-- The check options.types?.includes(aws-string): false when types is
absent (optional chaining yields undefined, which is falsy). -/
def typesIncludesAws (opts : BootcImageBuilderOptions) : Bool :=
  match opts.types with
  | none => false
  | some ts => ts.contains "aws"

/-- The ordered container-runtime argument list (podmanArgs). -/
def podmanArgs (opts : BootcImageBuilderOptions) : List String :=
  ["run", "--rm", "--privileged",
   "--security-opt label=type:unconfined_t",
   "--volume /var/lib/containers/storage:/var/lib/containers/storage",
   "--volume ./output:/output",
   configMountArg opts]
  ++ (if typesIncludesAws opts then ["--env AWS_*"] else [])
  ++ [opts.builderImage]

/-- The conditionally empty TLS flag phrase. -/
def tlsItem (opts : BootcImageBuilderOptions) : String :=
  if opts.tlsVerify then "" else "--tls-verify false"

/-- A JS ternary of the form x ? (flag + space + x) : empty-string over an
optional field; some "" is falsy exactly like the JS undefined case. -/
def optFlag (flag : String) (o : Option String) : String :=
  match o with
  | none => ""
  | some v => if v == "" then "" else flag ++ " " ++ v

/-- Optional chaining options.awsOptions?.f inside a template literal:
an absent record interpolates as the literal text undefined. -/
def awsField (o : Option AWSOptions) (f : AWSOptions → String) : String :=
  match o with
  | none => "undefined"
  | some a => f a

/-- The conditionally empty AWS region phrase (awsOptions?.Region is
falsy when the record or the field is absent or the field is ""). -/
def awsRegionItem (o : Option AWSOptions) : String :=
  match o with
  | none => ""
  | some a =>
    match a.Region with
    | none => ""
    | some r => if r == "" then "" else "--aws-region " ++ r

/-- The --type phrases: requested types with blank entries (after
trimming) discarded, in caller order, no deduplication. -/
def bibTypeArgs (opts : BootcImageBuilderOptions) : List String :=
  match opts.types with
  | none => []
  | some ts =>
    if 0 < ts.length then
      (ts.filter (fun t => truthy (jsTrim t))).map (fun t => "--type " ++ t)
    else []

/-- The AWS phrases appended when the aws type is requested. -/
def awsBibItems (opts : BootcImageBuilderOptions) : List String :=
  if typesIncludesAws opts then
    ["--aws-bucket " ++ awsField opts.awsOptions (fun a => a.BucketName),
     "--aws-ami-name " ++ awsField opts.awsOptions (fun a => a.AMIName),
     awsRegionItem opts.awsOptions]
  else []

/-- The ordered builder argument list (bibArgs): the build subcommand,
the output flag, the conditionally empty flag phrases, the type phrases,
the AWS phrases, and the target image last. -/
def bibArgs (opts : BootcImageBuilderOptions) : List String :=
  ["build", "--output /output", tlsItem opts,
   optFlag "--chown" opts.chown,
   optFlag "--rootfs" opts.rootfs,
   opts.additionalArgs.getD ""]
  ++ bibTypeArgs opts
  ++ awsBibItems opts
  ++ [opts.image]

/-- The token list handed to execAsRoot for the build run: concatenated
argument lists, truthy-filtered, joined with spaces, re-split on spaces
(the join-then-split composition of the source). -/
def finalTokens (opts : BootcImageBuilderOptions) : List String :=
  jsSplit ' ' (joinSep " " ((podmanArgs opts ++ bibArgs opts).filter truthy))

/-! ## Artifact collection (extractArtifactTypes, src/bib.ts 164-228) -/

/-- The type-name conversion switch of extractArtifactTypes. -/
def normalizeType (t : String) : String :=
  if t == "bootiso" then "iso"
  else if t == "vpc" then "vhd"
  else if t == "image" then "raw"
  else t

/-- The per-file artifact computation: extract the base file name and the
parent-directory type (throwing on a falsy result), convert the type,
resolve the relative path, and attach the streamed checksum. -/
def artifactOfDirent (env : Env) (f : Dirent) : Except String OutputArtifact :=
  if jsLastSeg '/' f.name == "" then
    .error ("Failed to extract file name from artifact path: " ++ f.name)
  else if jsLastSeg '/' f.parentPath == "" then
    .error ("Failed to extract type from artifact path: " ++ f.parentPath)
  else
    match env.checksum (env.resolve (f.parentPath ++ "/" ++ f.name)) with
    | .error e => .error e
    | .ok c =>
      .ok { type := normalizeType (jsLastSeg '/' f.parentPath),
            path := env.resolve (f.parentPath ++ "/" ++ f.name),
            checksum := some c }

/-- Sequential resolution of the per-file artifact computations; the
first failure rejects the whole collection (Promise.all). -/
def artifactsOf (env : Env) : List Dirent → Except String (List OutputArtifact)
  | [] => .ok []
  | f :: fs =>
    match artifactOfDirent env f with
    | .error e => .error e
    | .ok a =>
      match artifactsOf env fs with
      | .error e => .error e
      | .ok rest => .ok (a :: rest)

/-- The collection filter: regular files whose name does not end in
.json. -/
def filterFiles (files : List Dirent) : List Dirent :=
  files.filter (fun f => f.isFile && !(jsEndsWith ".json" f.name))

/-- Lookup in the association-list model of the JS Map. -/
def lookupStr (m : List (String × OutputArtifact)) (k : String) :
    Option OutputArtifact :=
  match m with
  | [] => none
  | (k1, v) :: rest => if k1 == k then some v else lookupStr rest k

/-- One step of the forEach loop filling artifactMap: an already present
type is skipped, otherwise the entry is appended. -/
def insertArtifact (m : List (String × OutputArtifact)) (a : OutputArtifact) :
    List (String × OutputArtifact) :=
  if (lookupStr m a.type).isSome then m else m ++ [(a.type, a)]

/-- The artifactMap built by the forEach loop, in insertion order. -/
def buildMap (arts : List OutputArtifact) : List (String × OutputArtifact) :=
  arts.foldl insertArtifact []

/-- extractArtifactTypes from src/bib.ts: filter, per-file artifact
computation, and first-wins map assembly. -/
def extractArtifactTypes (env : Env) (files : List Dirent) :
    Except String (List (String × OutputArtifact)) :=
  match artifactsOf env (filterFiles files) with
  | .error e => .error e
  | .ok arts => .ok (buildMap arts)

/-! ## Build pipeline (build and pullImage, src/bib.ts 43-162) -/

instance {ε α : Type} [DecidableEq ε] [DecidableEq α] : DecidableEq (Except ε α) :=
  fun a b =>
    match a, b with
    | .error e, .error f =>
      if h : e = f then .isTrue (congrArg Except.error h)
      else .isFalse (fun hh => h (Except.error.inj hh))
    | .ok x, .ok y =>
      if h : x = y then .isTrue (congrArg Except.ok h)
      else .isFalse (fun hh => h (Except.ok.inj hh))
    | .error _, .ok _ => .isFalse Except.noConfusion
    | .ok _, .error _ => .isFalse Except.noConfusion

/-- Outcome of the try-block body: a result or a thrown error, plus the
process invocations issued and the failure messages reported so far. -/
structure BodyOutcome where
  result : Except String BootcImageBuilderOutputs
  calls : List ExecCall
  fails : List String
deriving DecidableEq

/-- Outcome of the whole build call after the catch handler. -/
structure BuildOutcome where
  result : BootcImageBuilderOutputs
  calls : List ExecCall
  fails : List String
deriving DecidableEq

/-- The truthy-filtered argument list of a podman pull invocation. -/
def pullArgs (image : String) (tlsVerify : Bool) : List String :=
  (["pull", if tlsVerify then "" else "--tls-verify=false", image]).filter truthy

/-- pullImage from src/bib.ts: issue the pull; a failure is caught inside
and reported as a failure message, never rethrown. -/
def pullImage (env : Env) (image : String) (tlsVerify : Bool) :
    ExecCall × List String :=
  (⟨"podman", pullArgs image tlsVerify⟩,
   match env.exec (pullArgs image tlsVerify) with
   | .ok _ => []
   | .error e => ["Failed to pull image " ++ image ++ ": " ++ e])

/-- Error-propagating sequencing of two fallible steps (the await chain
of the source: a rejected step aborts the surrounding try block). -/
def exceptThen {α β : Type} (x : Except String α)
    (f : α → Except String β) : Except String β :=
  match x with
  | .error e => .error e
  | .ok a => f a

/-- The manifest base name: the first regular file of the walk whose name
ends in .json, degrading to the literal text undefined when absent. -/
def manifestName (files : List Dirent) : String :=
  match files.find? (fun f => f.isFile && jsEndsWith ".json" f.name) with
  | some f => f.name
  | none => "undefined"

/-- The phase after a successful build run: walk the output directory,
locate the manifest, and collect the typed artifacts. -/
def collectPhase (env : Env) : Except String BootcImageBuilderOutputs :=
  exceptThen env.readdir (fun files =>
    exceptThen (extractArtifactTypes env files) (fun m =>
      .ok { manifestPath := "./output/" ++ manifestName files,
            outputDirectory := "./output",
            outputArtifacts := m }))

/-- The build run followed by collection. -/
def execPhase (env : Env) (opts : BootcImageBuilderOptions) :
    Except String BootcImageBuilderOutputs :=
  match env.exec (finalTokens opts) with
  | .error e => .error e
  | .ok _ => collectPhase env

/-- The try-block body of build: environment preparation, the two image
pulls (whose failures are swallowed by pullImage), output-directory
creation, the build run, and collection. -/
def buildBody (env : Env) (opts : BootcImageBuilderOptions) : BodyOutcome :=
  match env.prepare with
  | .error e => ⟨.error e, [], []⟩
  | .ok _ =>
    let p1 := pullImage env opts.builderImage opts.tlsVerify
    let p2 := pullImage env opts.image opts.tlsVerify
    match env.mkdir with
    | .error e => ⟨.error e, [p1.1, p2.1], p1.2 ++ p2.2⟩
    | .ok _ =>
      ⟨execPhase env opts,
       [p1.1, p2.1, ⟨"podman", finalTokens opts⟩],
       p1.2 ++ p2.2⟩

/-- The terminal all-empty result returned by the catch handler. -/
def emptyOutputs : BootcImageBuilderOutputs :=
  ⟨"", "", []⟩

/-- build from src/bib.ts: the try-block body with the catch handler that
converts any thrown error into a reported message plus the all-empty
result. -/
def build (env : Env) (opts : BootcImageBuilderOptions) : BuildOutcome :=
  match buildBody env opts with
  | ⟨.ok o, cs, fs⟩ => ⟨o, cs, fs⟩
  | ⟨.error e, cs, fs⟩ => ⟨emptyOutputs, cs, fs ++ ["Build process failed: " ++ e]⟩

/-- Helper: keep the first of two options. -/
def optFirst (a b : Option OutputArtifact) : Option OutputArtifact :=
  match a with
  | some x => some x
  | none => b

/-! ## Concrete instances used by witnesses and counterexamples -/

/-- An environment in which every collaborator succeeds: the walk finds a
manifest and one qcow2 artifact, checksums stream to a fixed digest, and
path.resolve prepends an absolute working directory. -/
def envOk : Env :=
  { prepare := .ok (), mkdir := .ok (),
    exec := fun _ => .ok (),
    readdir := .ok [⟨"manifest.json", "./output", true⟩,
                    ⟨"disk.qcow2", "./output/qcow2", true⟩],
    checksum := fun _ => .ok "cafe",
    resolve := fun p => "/work/" ++ p }

/-- An environment identical to envOk except that every podman pull
invocation fails. -/
def envPullFail : Env :=
  { prepare := .ok (), mkdir := .ok (),
    exec := fun args => if args.head? = some "pull" then .error "boom" else .ok (),
    readdir := .ok [⟨"manifest.json", "./output", true⟩,
                    ⟨"disk.qcow2", "./output/qcow2", true⟩],
    checksum := fun _ => .ok "cafe",
    resolve := fun p => "/work/" ++ p }

/-- A plain well-formed request. -/
def opts0 : BootcImageBuilderOptions :=
  { configFilePath := "c.toml", image := "img", builderImage := "bib",
    tlsVerify := true, types := some ["qcow2"] }

/-- A request whose type set is the spec scenario value ami. -/
def optsAmi : BootcImageBuilderOptions :=
  { configFilePath := "c.toml", image := "img", builderImage := "bib",
    tlsVerify := true, types := some ["ami"],
    awsOptions := some ⟨"x", "y", none⟩ }

/-- A request whose type set contains aws with the scenario AWS options. -/
def optsAws : BootcImageBuilderOptions :=
  { configFilePath := "c.toml", image := "img", builderImage := "bib",
    tlsVerify := true, types := some ["aws"],
    awsOptions := some ⟨"x", "y", none⟩ }

/-- A request with the aws type but no AWS options record at all. -/
def optsAwsNone : BootcImageBuilderOptions :=
  { configFilePath := "c.toml", image := "img", builderImage := "bib",
    tlsVerify := true, types := some ["aws"] }

/-- A request whose config-file path contains no dot. -/
def optsNoDot : BootcImageBuilderOptions :=
  { configFilePath := "myconfig", image := "img", builderImage := "bib",
    tlsVerify := true }

/-- A request whose additional-argument string contains consecutive
whitespace. -/
def optsDoubleSpace : BootcImageBuilderOptions :=
  { configFilePath := "c.toml", image := "img", builderImage := "bib",
    tlsVerify := true, additionalArgs := some "a  b" }

/-- Walk result with two artifact files colliding on the same type
subdirectory. -/
def filesCollide : List Dirent :=
  [⟨"a.iso", "./output/bootiso", true⟩, ⟨"b.iso", "./output/bootiso", true⟩]

/-- The artifacts computed from filesCollide under envOk. -/
def artsCollide : List OutputArtifact :=
  [⟨"iso", "/work/./output/bootiso/a.iso", some "cafe"⟩,
   ⟨"iso", "/work/./output/bootiso/b.iso", some "cafe"⟩]

/-- Walk result containing a stray .json file inside a type
subdirectory next to a real artifact. -/
def filesJson : List Dirent :=
  [⟨"manifest.json", "./output", true⟩,
   ⟨"extra.json", "./output/qcow2", true⟩,
   ⟨"disk.qcow2", "./output/qcow2", true⟩]

/-- The artifact map computed from filesJson under envOk. -/
def mapJson : List (String × OutputArtifact) :=
  [("qcow2", ⟨"qcow2", "/work/./output/qcow2/disk.qcow2", some "cafe"⟩)]

/-- The successful result of build envOk opts0. -/
def outOk : BootcImageBuilderOutputs :=
  { manifestPath := "./output/manifest.json",
    outputDirectory := "./output",
    outputArtifacts :=
      [("qcow2", ⟨"qcow2", "/work/./output/qcow2/disk.qcow2", some "cafe"⟩)] }

/-! ## String toolkit lemmas -/

theorem str_data_append (a b : String) : (a ++ b).data = a.data ++ b.data := by
  cases a
  cases b
  rfl

theorem splitChAux_ne_nil (sep : Char) (l : List Char) :
    ∀ acc, splitChAux sep l acc ≠ [] := by
  induction l with
  | nil => intro acc; simp [splitChAux]
  | cons c cs ih =>
    intro acc
    by_cases h : c = sep <;> simp [splitChAux, h, ih]

theorem splitChAux_append (sep : Char) (a : List Char) :
    ∀ (acc b : List Char),
      splitChAux sep (a ++ sep :: b) acc =
        splitChAux sep a acc ++ splitChAux sep b [] := by
  induction a with
  | nil => intro acc b; simp [splitChAux]
  | cons c cs ih =>
    intro acc b
    by_cases h : c = sep <;> simp [splitChAux, h, ih]

theorem splitChAux_no_sep (sep : Char) (l : List Char) :
    ∀ acc, sep ∉ l → splitChAux sep l acc = [String.mk (acc.reverse ++ l)] := by
  induction l with
  | nil => intro acc _; simp [splitChAux]
  | cons c cs ih =>
    intro acc h
    have hc : ¬ c = sep := by
      intro hh
      exact h (by rw [← hh]; exact List.mem_cons_self c cs)
    have hcs : sep ∉ cs := fun hm => h (List.mem_cons_of_mem c hm)
    simp [splitChAux, hc, ih (c :: acc) hcs, List.append_assoc]

theorem mem_splitChAux_no_sep (sep : Char) (l : List Char) :
    ∀ (acc : List Char) (s : String), sep ∉ acc →
      s ∈ splitChAux sep l acc → sep ∉ s.data := by
  induction l with
  | nil =>
    intro acc s hacc hs
    simp [splitChAux] at hs
    subst hs
    intro hc
    exact hacc (by simpa using hc)
  | cons c cs ih =>
    intro acc s hacc hs
    by_cases h : c = sep
    · subst h
      simp [splitChAux] at hs
      rcases hs with hs | hs
      · subst hs
        intro hc
        exact hacc (by simpa using hc)
      · exact ih [] s (by simp) hs
    · simp [splitChAux, h] at hs
      have hacc2 : sep ∉ c :: acc := by
        intro hm
        rcases List.mem_cons.mp hm with hm | hm
        · exact h hm.symm
        · exact hacc hm
      exact ih (c :: acc) s hacc2 hs

theorem jsPop_mem : ∀ (l : List String), l ≠ [] → jsPop l ∈ l
  | [], h => absurd rfl h
  | [s], _ => by simp [jsPop]
  | _ :: t :: r, _ => List.mem_cons_of_mem _ (jsPop_mem (t :: r) (by simp))

theorem jsLastSeg_no_sep (sep : Char) (s : String) :
    sep ∉ (jsLastSeg sep s).data :=
  mem_splitChAux_no_sep sep s.data [] _ (by simp)
    (jsPop_mem _ (splitChAux_ne_nil sep s.data []))

theorem jsLastSeg_config (seg : String) (h : '.' ∉ seg.data) :
    jsLastSeg '.' ("/config." ++ seg) = seg := by
  have hmk : String.mk seg.data = seg := by cases seg; rfl
  have hdata : ("/config." ++ seg).data = "/config".data ++ '.' :: seg.data := by
    rw [str_data_append]
    rfl
  unfold jsLastSeg jsSplit
  rw [hdata, splitChAux_append, splitChAux_no_sep '.' seg.data [] h]
  simp [jsPop, hmk]

theorem jsSplit_append_space (s J : String) :
    jsSplit ' ' (s ++ " " ++ J) = jsSplit ' ' s ++ jsSplit ' ' J := by
  have hdata : (s ++ " " ++ J).data = s.data ++ ' ' :: J.data := by
    rw [str_data_append, str_data_append]
    simp [List.append_assoc]
  unfold jsSplit
  rw [hdata, splitChAux_append]

theorem no_empty_token : ∀ (l : List String), l ≠ [] →
    (∀ s ∈ l, "" ∉ jsSplit ' ' s) → "" ∉ jsSplit ' ' (joinSep " " l)
  | [], h, _ => absurd rfl h
  | [s], _, h => h s (by simp)
  | s :: t :: r, _, h => by
    have hj : joinSep " " (s :: t :: r) = s ++ " " ++ joinSep " " (t :: r) := rfl
    rw [hj, jsSplit_append_space]
    intro hmem
    rcases List.mem_append.mp hmem with h1 | h2
    · exact h s (by simp) h1
    · exact no_empty_token (t :: r) (by simp)
        (fun x hx => h x (List.mem_cons_of_mem s hx)) h2

theorem isPref_append_self : ∀ (p r : List Char), isPref p (p ++ r) = true := by
  intro p
  induction p with
  | nil => intro r; simp [isPref]
  | cons c cs ih => intro r; simp [isPref, ih]

theorem listContains_self_append (pat y : List Char) :
    listContains pat (pat ++ y) = true := by
  cases pat with
  | nil =>
    cases y with
    | nil => rfl
    | cons c cs => simp [listContains, isPref]
  | cons p ps =>
    simp only [listContains]
    have h := isPref_append_self (p :: ps) y
    rw [List.cons_append] at h
    simp [h]

theorem listContains_append_right (pat : List Char) :
    ∀ (x y : List Char), listContains pat y = true →
      listContains pat (x ++ y) = true := by
  intro x
  induction x with
  | nil => intro y h; simpa using h
  | cons c cs ih =>
    intro y h
    simp [listContains, ih y h]

theorem configArg_contains (opts : BootcImageBuilderOptions) :
    strContains ":/config." (configMountArg opts) = true := by
  unfold strContains configMountArg
  have hd : ("--volume " ++ opts.configFilePath ++ ":/config." ++
        jsLastSeg '.' opts.configFilePath ++ ":ro").data =
      "--volume ".data ++ (opts.configFilePath.data ++ (":/config.".data ++
        ((jsLastSeg '.' opts.configFilePath).data ++ ":ro".data))) := by
    rw [str_data_append, str_data_append, str_data_append, str_data_append]
    simp [List.append_assoc]
  rw [hd]
  exact listContains_append_right _ _ _
    (listContains_append_right _ _ _ (listContains_self_append _ _))

/-! ## Artifact map lemmas -/

theorem optFirst_none_right (a : Option OutputArtifact) : optFirst a none = a := by
  cases a <;> rfl

theorem optFirst_assoc (a b c : Option OutputArtifact) :
    optFirst (optFirst a b) c = optFirst a (optFirst b c) := by
  cases a <;> rfl

theorem lookupStr_append_single (m : List (String × OutputArtifact))
    (k : String) (v : OutputArtifact) (t : String) :
    lookupStr (m ++ [(k, v)]) t =
      optFirst (lookupStr m t) (if k == t then some v else none) := by
  induction m with
  | nil => simp [lookupStr, optFirst]
  | cons e m ih =>
    obtain ⟨k1, w⟩ := e
    by_cases h : k1 = t <;> simp [lookupStr, h, ih, optFirst]

theorem lookup_insertArtifact (m : List (String × OutputArtifact))
    (a : OutputArtifact) (t : String) :
    lookupStr (insertArtifact m a) t =
      optFirst (lookupStr m t)
        (if (lookupStr m a.type).isSome then none
         else if a.type == t then some a else none) := by
  unfold insertArtifact
  by_cases h : (lookupStr m a.type).isSome
  · simp [h, optFirst_none_right]
  · simp [h, lookupStr_append_single]

theorem lookup_foldl_ins (l : List OutputArtifact) :
    ∀ (m : List (String × OutputArtifact)) (t : String),
      lookupStr (l.foldl insertArtifact m) t =
        optFirst (lookupStr m t) (l.find? (fun a => a.type == t)) := by
  induction l with
  | nil => intro m t; simp [optFirst_none_right]
  | cons a l ih =>
    intro m t
    rw [List.foldl_cons, ih, lookup_insertArtifact, optFirst_assoc]
    by_cases hmem : (lookupStr m a.type).isSome
    · by_cases ha : (a.type == t) = true
      · have hat : a.type = t := by simpa using ha
        obtain ⟨w, hw⟩ := Option.isSome_iff_exists.mp hmem
        rw [← hat]
        rw [hw]
        simp [optFirst]
      · simp only [hmem, if_true]
        congr 1
        simp [optFirst, List.find?, ha]
    · simp only [hmem, if_false]
      congr 1
      by_cases ha : (a.type == t) = true <;> simp [optFirst, List.find?, ha]

theorem buildMap_mem (l : List OutputArtifact) :
    ∀ (m0 : List (String × OutputArtifact)) (e : String × OutputArtifact),
      e ∈ l.foldl insertArtifact m0 →
      e ∈ m0 ∨ ∃ a, a ∈ l ∧ e = (a.type, a) := by
  induction l with
  | nil => intro m0 e h; exact Or.inl h
  | cons a l ih =>
    intro m0 e h
    rw [List.foldl_cons] at h
    rcases ih (insertArtifact m0 a) e h with h1 | ⟨b, hb, rfl⟩
    · unfold insertArtifact at h1
      by_cases hs : (lookupStr m0 a.type).isSome
      · rw [if_pos hs] at h1
        exact Or.inl h1
      · rw [if_neg hs] at h1
        rcases List.mem_append.mp h1 with h2 | h2
        · exact Or.inl h2
        · right
          refine ⟨a, List.mem_cons_self a l, ?_⟩
          simpa using h2
    · exact Or.inr ⟨b, List.mem_cons_of_mem a hb, rfl⟩

theorem artifactsOf_mem (env : Env) :
    ∀ (fs : List Dirent) (arts : List OutputArtifact),
      artifactsOf env fs = .ok arts →
      ∀ a ∈ arts, ∃ f, f ∈ fs ∧ artifactOfDirent env f = .ok a := by
  intro fs
  induction fs with
  | nil =>
    intro arts h a ha
    simp [artifactsOf] at h
    subst h
    cases ha
  | cons f fs ih =>
    intro arts h a ha
    unfold artifactsOf at h
    cases h1 : artifactOfDirent env f with
    | error e => rw [h1] at h; cases h
    | ok a0 =>
      rw [h1] at h
      cases h2 : artifactsOf env fs with
      | error e => rw [h2] at h; cases h
      | ok rest =>
        rw [h2] at h
        obtain rfl : a0 :: rest = arts := by
          simpa using h
        rcases List.mem_cons.mp ha with rfl | ha2
        · exact ⟨f, List.mem_cons_self f fs, h1⟩
        · obtain ⟨g, hg, hga⟩ := ih rest h2 a ha2
          exact ⟨g, List.mem_cons_of_mem f hg, hga⟩

theorem artifactOfDirent_ok (env : Env) (f : Dirent) (a : OutputArtifact)
    (h : artifactOfDirent env f = .ok a) :
    a.path = env.resolve (f.parentPath ++ "/" ++ f.name) ∧
      a.type = normalizeType (jsLastSeg '/' f.parentPath) := by
  unfold artifactOfDirent at h
  by_cases h1 : (jsLastSeg '/' f.name == "") = true
  · rw [if_pos h1] at h; cases h
  · rw [if_neg h1] at h
    by_cases h2 : (jsLastSeg '/' f.parentPath == "") = true
    · rw [if_pos h2] at h; cases h
    · rw [if_neg h2] at h
      cases h3 : env.checksum (env.resolve (f.parentPath ++ "/" ++ f.name)) with
      | error e => rw [h3] at h; cases h
      | ok c =>
        rw [h3] at h
        injection h with h4
        subst h4
        exact ⟨rfl, rfl⟩

theorem buildBody_ok (env : Env) (opts : BootcImageBuilderOptions)
    (o : BootcImageBuilderOutputs)
    (h : (buildBody env opts).result = Except.ok o) :
    ∃ files m, env.readdir = .ok files ∧
      extractArtifactTypes env files = .ok m ∧
      o = ⟨"./output/" ++ manifestName files, "./output", m⟩ := by
  unfold buildBody at h
  cases hp : env.prepare with
  | error e => rw [hp] at h; cases h
  | ok u =>
    rw [hp] at h
    cases hm : env.mkdir with
    | error e => rw [hm] at h; cases h
    | ok u2 =>
      rw [hm] at h
      have h2 : execPhase env opts = Except.ok o := h
      unfold execPhase at h2
      cases hx : env.exec (finalTokens opts) with
      | error e => rw [hx] at h2; cases h2
      | ok u3 =>
        rw [hx] at h2
        have h3 : collectPhase env = Except.ok o := h2
        unfold collectPhase at h3
        cases hr : env.readdir with
        | error e => rw [hr] at h3; cases h3
        | ok files =>
          rw [hr] at h3
          have h4 : exceptThen (extractArtifactTypes env files)
              (fun m => Except.ok
                (⟨"./output/" ++ manifestName files, "./output", m⟩ :
                  BootcImageBuilderOutputs)) = Except.ok o := h3
          cases he : extractArtifactTypes env files with
          | error e => rw [he] at h4; cases h4
          | ok m =>
            rw [he] at h4
            have h5 : Except.ok
                (⟨"./output/" ++ manifestName files, "./output", m⟩ :
                  BootcImageBuilderOutputs) = Except.ok o := h4
            injection h5 with h6
            exact ⟨files, m, rfl, he, h6.symm⟩

/-! ## Claim theorems -/

/-- C3 counterexample: the normalization of the source maps bootiso to
iso, not to anaconda-iso as the claim states, so the claimed mapping
fails at the concrete input bootiso. -/
theorem claimC3_counterexample :
    normalizeType "bootiso" = "iso" ∧ normalizeType "bootiso" ≠ "anaconda-iso" := by
  decide

/-- C3 (amended): the artifact type-name normalization is a pure,
idempotent function on strings; it maps bootiso to iso (not
anaconda-iso), vpc to vhd, image to raw, and leaves every other name
unchanged. -/
theorem claimC3 :
    (∀ s, normalizeType (normalizeType s) = normalizeType s) ∧
    normalizeType "bootiso" = "iso" ∧
    normalizeType "vpc" = "vhd" ∧
    normalizeType "image" = "raw" ∧
    (∀ s, s ≠ "bootiso" → s ≠ "vpc" → s ≠ "image" → normalizeType s = s) := by
  refine ⟨?_, by decide, by decide, by decide, ?_⟩
  · intro s
    by_cases h1 : s = "bootiso"
    · subst h1; decide
    · by_cases h2 : s = "vpc"
      · subst h2; decide
      · by_cases h3 : s = "image"
        · subst h3; decide
        · have hs : normalizeType s = s := by simp [normalizeType, h1, h2, h3]
          rw [hs, hs]
  · intro s h1 h2 h3
    simp [normalizeType, h1, h2, h3]

/-- C3 witness: the amended theorem applied at the concrete inputs qcow2
(an unmapped name, discharging the three disequality hypotheses) and
vpc (idempotence). -/
theorem claimC3_witness :
    normalizeType "qcow2" = "qcow2" ∧
    normalizeType (normalizeType "vpc") = normalizeType "vpc" :=
  ⟨claimC3.2.2.2.2 "qcow2" (by decide) (by decide) (by decide), claimC3.1 "vpc"⟩

/-- C8: whenever the per-file artifact computation over the filtered walk
succeeds, extractArtifactTypes succeeds with the first-wins map: the map
entry for every type is exactly the first artifact of that type in
discovery order, so later duplicates never overwrite an earlier entry. -/
theorem claimC8 (env : Env) (files : List Dirent) (arts : List OutputArtifact)
    (h : artifactsOf env (filterFiles files) = .ok arts) :
    extractArtifactTypes env files = .ok (buildMap arts) ∧
    ∀ t, lookupStr (buildMap arts) t = arts.find? (fun a => a.type == t) := by
  constructor
  · unfold extractArtifactTypes
    rw [h]
  · intro t
    unfold buildMap
    rw [lookup_foldl_ins]
    rfl

/-- C8 witness: two discovered files collide on the bootiso type
subdirectory; the collection succeeds and the map retains exactly the
first-discovered artifact for the normalized type iso. -/
theorem claimC8_witness :
    extractArtifactTypes envOk filesCollide = .ok (buildMap artsCollide) ∧
    lookupStr (buildMap artsCollide) "iso" =
      some ⟨"iso", "/work/./output/bootiso/a.iso", some "cafe"⟩ := by
  have h := claimC8 envOk filesCollide artsCollide rfl
  exact ⟨h.1, by rw [h.2 "iso"]; rfl⟩

/-- C9: the build operation is total and never propagates an error
across its boundary: for every environment and every request it returns
a BuildOutcome whose result is either the successful body result or,
when the body fails with any internal error, the all-empty outputs with
the error converted to a reported failure message. -/
theorem claimC9 (env : Env) (opts : BootcImageBuilderOptions) :
    ((buildBody env opts).result = Except.ok (build env opts).result ∧
      (build env opts).fails = (buildBody env opts).fails) ∨
    (∃ e, (buildBody env opts).result = Except.error e ∧
      (build env opts).result = emptyOutputs ∧
      (build env opts).fails =
        (buildBody env opts).fails ++ ["Build process failed: " ++ e]) := by
  cases hb : buildBody env opts with
  | mk r cs fs =>
    cases r with
    | ok o => left; exact ⟨by simp [build, hb], by simp [build, hb]⟩
    | error e =>
      right
      exact ⟨e, by simp [hb], by simp [build, hb], by simp [build, hb]⟩

/-- C10: every entry of the artifact map produced by
extractArtifactTypes originates from a discovered regular file whose
name does not end in .json; .json files are excluded from artifact
collection by the filter. -/
theorem claimC10 (env : Env) (files : List Dirent)
    (m : List (String × OutputArtifact))
    (h : extractArtifactTypes env files = .ok m) :
    ∀ e ∈ m, ∃ f, f ∈ files ∧ f.isFile = true ∧
      jsEndsWith ".json" f.name = false ∧
      artifactOfDirent env f = .ok e.2 := by
  unfold extractArtifactTypes at h
  cases ha : artifactsOf env (filterFiles files) with
  | error e0 => rw [ha] at h; cases h
  | ok arts =>
    rw [ha] at h
    injection h with hm
    subst hm
    intro e hem
    rcases buildMap_mem arts [] e hem with h0 | ⟨a, hal, rfl⟩
    · cases h0
    · obtain ⟨f, hf, hfa⟩ := artifactsOf_mem env (filterFiles files) arts ha a hal
      have hmem := List.mem_filter.mp hf
      have hpred := hmem.2
      rw [Bool.and_eq_true] at hpred
      refine ⟨f, hmem.1, hpred.1, ?_, hfa⟩
      simpa using hpred.2

/-- C10 witness: a walk with a stray .json file inside the qcow2 type
subdirectory; the single map entry originates from the non-json
disk.qcow2 file. -/
theorem claimC10_witness :
    ∃ f, f ∈ filesJson ∧ f.isFile = true ∧
      jsEndsWith ".json" f.name = false ∧
      artifactOfDirent envOk f =
        .ok (⟨"qcow2", "/work/./output/qcow2/disk.qcow2", some "cafe"⟩ : OutputArtifact) :=
  claimC10 envOk filesJson mapJson rfl
    ("qcow2", ⟨"qcow2", "/work/./output/qcow2/disk.qcow2", some "cafe"⟩)
    (by decide)

/-- C1 counterexample: in an environment where every pull fails, the
build still issues the builder run invocation, reports the two pull
failures, and returns a populated (non-empty) result — refuting the
claim that a pull failure is fatal, skips the builder, and forces the
all-empty result. -/
theorem claimC1_counterexample :
    (⟨"podman", finalTokens opts0⟩ : ExecCall) ∈ (build envPullFail opts0).calls ∧
    (build envPullFail opts0).result ≠ emptyOutputs ∧
    (build envPullFail opts0).fails =
      ["Failed to pull image bib: boom", "Failed to pull image img: boom"] := by
  decide

/-- C1 (amended): a failure while pulling the builder image is reported
through the error channel but swallowed inside the pull step: provided
preparation and output-directory creation succeed, the builder run
invocation is still issued. -/
theorem claimC1 (env : Env) (opts : BootcImageBuilderOptions) (e : String)
    (hprep : env.prepare = Except.ok ())
    (hmk : env.mkdir = Except.ok ())
    (hpull : env.exec (pullArgs opts.builderImage opts.tlsVerify) = Except.error e) :
    ("Failed to pull image " ++ opts.builderImage ++ ": " ++ e) ∈
      (build env opts).fails ∧
    (⟨"podman", finalTokens opts⟩ : ExecCall) ∈ (build env opts).calls := by
  unfold build buildBody
  rw [hprep, hmk]
  cases hx : execPhase env opts with
  | ok o => exact ⟨by simp [pullImage, hpull, hx], by simp [hx]⟩
  | error e2 => exact ⟨by simp [pullImage, hpull, hx], by simp [hx]⟩

/-- C1 witness: the amended theorem applied to the concrete failing-pull
environment and the plain request. -/
theorem claimC1_witness :
    ("Failed to pull image " ++ opts0.builderImage ++ ": " ++ "boom") ∈
      (build envPullFail opts0).fails ∧
    (⟨"podman", finalTokens opts0⟩ : ExecCall) ∈ (build envPullFail opts0).calls :=
  claimC1 envPullFail opts0 "boom" rfl rfl rfl

/-- C5 counterexample: with the aws type requested and no AWS options at
all, the build succeeds (no failure reported), the builder run is
issued, and the placeholder tokens from the undefined interpolation
reach the invoker — refuting the claimed fail-fast validation. -/
theorem claimC5_counterexample :
    (build envOk optsAwsNone).fails = [] ∧
    (⟨"podman", finalTokens optsAwsNone⟩ : ExecCall) ∈ (build envOk optsAwsNone).calls ∧
    "--aws-bucket" ∈ finalTokens optsAwsNone ∧
    "undefined" ∈ finalTokens optsAwsNone := by
  decide

/-- C5 (amended): the orchestrator performs no validation of the AWS
options: when the aws type is requested and the options record is
absent, the builder argument list carries the flags with the literal
interpolated text undefined, and (when preparation and directory
creation succeed) the builder run invocation is still issued. -/
theorem claimC5 (env : Env) (opts : BootcImageBuilderOptions)
    (hty : typesIncludesAws opts = true)
    (hnone : opts.awsOptions = none)
    (hprep : env.prepare = Except.ok ())
    (hmk : env.mkdir = Except.ok ()) :
    "--aws-bucket undefined" ∈ bibArgs opts ∧
    "--aws-ami-name undefined" ∈ bibArgs opts ∧
    (⟨"podman", finalTokens opts⟩ : ExecCall) ∈ (build env opts).calls := by
  refine ⟨?_, ?_, ?_⟩
  · simp [bibArgs, awsBibItems, hty, hnone, awsField]
  · simp [bibArgs, awsBibItems, hty, hnone, awsField]
  · unfold build buildBody
    rw [hprep, hmk]
    cases hx : execPhase env opts with
    | ok o => simp [hx]
    | error e2 => simp [hx]

/-- C5 witness: the amended theorem applied to the concrete aws-typed
request without AWS options under the all-success environment. -/
theorem claimC5_witness :
    "--aws-bucket undefined" ∈ bibArgs optsAwsNone ∧
    "--aws-ami-name undefined" ∈ bibArgs optsAwsNone ∧
    (⟨"podman", finalTokens optsAwsNone⟩ : ExecCall) ∈ (build envOk optsAwsNone).calls :=
  claimC5 envOk optsAwsNone rfl rfl rfl rfl

/-- Helper: a path built on the relative output-directory stem is never
filesystem-absolute. -/
theorem isAbs_dotOutput (x : String) :
    isAbsolutePath ("./output/" ++ x) = false := by
  cases x
  rfl

/-- C4 counterexample: a fully successful build whose manifest path is
the relative concatenation ./output/manifest.json, which is not a
filesystem-absolute path — refuting the claim that every path placed in
the result is absolute. -/
theorem claimC4_counterexample :
    (build envOk opts0).fails = [] ∧
    (build envOk opts0).result.manifestPath = "./output/manifest.json" ∧
    isAbsolutePath (build envOk opts0).result.manifestPath = false := by
  decide

/-- C4 (amended): on every successful build, the path of every artifact
in the result map is absolute (it passes through path.resolve, assumed
to produce absolute paths), but the manifest path is the relative
concatenation of the output directory and the manifest name, never
absolute. -/
theorem claimC4 (env : Env) (opts : BootcImageBuilderOptions)
    (o : BootcImageBuilderOutputs)
    (habs : ∀ p, isAbsolutePath (env.resolve p) = true)
    (hok : (buildBody env opts).result = Except.ok o) :
    (∀ e ∈ o.outputArtifacts, isAbsolutePath e.2.path = true) ∧
      isAbsolutePath o.manifestPath = false := by
  obtain ⟨files, m, hr, he, rfl⟩ := buildBody_ok env opts o hok
  constructor
  · intro e hem
    unfold extractArtifactTypes at he
    cases ha : artifactsOf env (filterFiles files) with
    | error e0 => rw [ha] at he; cases he
    | ok arts =>
      rw [ha] at he
      injection he with hm2
      subst hm2
      rcases buildMap_mem arts [] e hem with h0 | ⟨a, hal, rfl⟩
      · cases h0
      · obtain ⟨f, hf, hfa⟩ := artifactsOf_mem env (filterFiles files) arts ha a hal
        have hp := (artifactOfDirent_ok env f a hfa).1
        show isAbsolutePath a.path = true
        rw [hp]
        exact habs _
  · exact isAbs_dotOutput (manifestName files)

/-- C4 witness: the amended theorem applied to the all-success
environment and the plain request, yielding the concrete successful
result. -/
theorem claimC4_witness :
    (∀ e ∈ outOk.outputArtifacts, isAbsolutePath e.2.path = true) ∧
      isAbsolutePath outOk.manifestPath = false :=
  claimC4 envOk opts0 outOk (fun _ => rfl) rfl

/-- C6 counterexample: a config-file path with no dot yields the mount
name /config.myconfig, which does contain a dot and therefore has an
extension (the entire source name) — refuting the claim that a dotless
source yields a mount name with no extension at all. -/
theorem claimC6_counterexample :
    strContains "." optsNoDot.configFilePath = false ∧
    configMountName optsNoDot = "/config.myconfig" ∧
    strContains "." (configMountName optsNoDot) = true ∧
    jsLastSeg '.' (configMountName optsNoDot) = "myconfig" := by
  decide

/-- C6 (amended): the runtime argument list contains exactly one
config-file bind-mount argument (provided the builder image reference is
not itself such a string), and the in-container mount name's extension
(its last dot-delimited segment) always equals the last dot-delimited
segment of the source config-file path — in particular, for a dotless
source the mount extension is the whole source name rather than being
absent. -/
theorem claimC6 (opts : BootcImageBuilderOptions)
    (hb : strContains ":/config." opts.builderImage = false) :
    List.countP (fun s => strContains ":/config." s) (podmanArgs opts) = 1 ∧
    jsLastSeg '.' (configMountName opts) = jsLastSeg '.' opts.configFilePath := by
  constructor
  · unfold podmanArgs
    rw [List.countP_append, List.countP_append]
    have hsplit : (["run", "--rm", "--privileged",
        "--security-opt label=type:unconfined_t",
        "--volume /var/lib/containers/storage:/var/lib/containers/storage",
        "--volume ./output:/output", configMountArg opts] : List String) =
      ["run", "--rm", "--privileged", "--security-opt label=type:unconfined_t",
       "--volume /var/lib/containers/storage:/var/lib/containers/storage",
       "--volume ./output:/output"] ++ [configMountArg opts] := rfl
    rw [hsplit, List.countP_append]
    have hz : List.countP (fun s => strContains ":/config." s)
        ["run", "--rm", "--privileged", "--security-opt label=type:unconfined_t",
         "--volume /var/lib/containers/storage:/var/lib/containers/storage",
         "--volume ./output:/output"] = 0 := by decide
    have ho : List.countP (fun s => strContains ":/config." s)
        [configMountArg opts] = 1 := by
      simp [List.countP_cons, configArg_contains opts]
    have hif : List.countP (fun s => strContains ":/config." s)
        (if typesIncludesAws opts then ["--env AWS_*"] else []) = 0 := by
      by_cases hA : typesIncludesAws opts = true
      · rw [if_pos hA]; decide
      · rw [if_neg hA]; rfl
    have hbp : List.countP (fun s => strContains ":/config." s)
        [opts.builderImage] = 0 := by
      simp [List.countP_cons, hb]
    rw [hz, ho, hif, hbp]
  · exact jsLastSeg_config (jsLastSeg '.' opts.configFilePath)
      (jsLastSeg_no_sep '.' opts.configFilePath)

/-- C6 witness: the amended theorem at a concrete request with a
dotted config path and an ordinary builder image reference. -/
theorem claimC6_witness :
    List.countP (fun s => strContains ":/config." s) (podmanArgs opts0) = 1 ∧
    jsLastSeg '.' (configMountName opts0) = jsLastSeg '.' opts0.configFilePath :=
  claimC6 opts0 (by decide)

/-- C7 counterexample: an additional-argument string with consecutive
whitespace makes the join-then-split composition reintroduce an
empty-string token into the list handed to the invoker — refuting the
claim that the final argument list never contains empty tokens. -/
theorem claimC7_counterexample :
    optsDoubleSpace.additionalArgs = some "a  b" ∧
    "" ∈ finalTokens optsDoubleSpace := by
  decide

/-- C7 (amended): element-level empty strings are filtered out before
the join, so whenever every truthy assembled argument string itself
splits into no empty tokens (no leading, trailing, or consecutive
whitespace), the final token list handed to the invoker contains no
empty-string tokens. -/
theorem claimC7 (opts : BootcImageBuilderOptions)
    (h : ∀ s ∈ podmanArgs opts ++ bibArgs opts,
      truthy s = true → "" ∉ jsSplit ' ' s) :
    "" ∉ finalTokens opts := by
  unfold finalTokens
  have hrun : "run" ∈ podmanArgs opts ++ bibArgs opts := by
    apply List.mem_append_left
    unfold podmanArgs
    apply List.mem_append_left
    apply List.mem_append_left
    exact List.mem_cons_self _ _
  have hne : (podmanArgs opts ++ bibArgs opts).filter truthy ≠ [] :=
    List.ne_nil_of_mem (List.mem_filter.mpr ⟨hrun, by decide⟩)
  exact no_empty_token _ hne
    (fun s hs => h s (List.mem_filter.mp hs).1 (List.mem_filter.mp hs).2)

/-- C7 witness: the amended theorem at a concrete clean request, whose
assembled argument strings all split without empty tokens. -/
theorem claimC7_witness : "" ∉ finalTokens opts0 :=
  claimC7 opts0 (by decide)

/-- Helper: the aws-region flag text never starts the empty string. -/
theorem pref_aws_region_empty : strHasPref "--aws-region" "" = false := rfl

/-- Helper: the aws-region flag text never starts a type phrase. -/
theorem pref_aws_region_type (t : String) :
    strHasPref "--aws-region" ("--type " ++ t) = false := rfl

/-- Helper: the aws-region flag text never starts a chown phrase. -/
theorem pref_aws_region_chown (v : String) :
    strHasPref "--aws-region" ("--chown" ++ " " ++ v) = false := rfl

/-- Helper: the aws-region flag text never starts a rootfs phrase. -/
theorem pref_aws_region_rootfs (v : String) :
    strHasPref "--aws-region" ("--rootfs" ++ " " ++ v) = false := rfl

/-- Helper: the aws-region flag text never starts an optional chown
flag phrase. -/
theorem pref_aws_region_optChown (o : Option String) :
    strHasPref "--aws-region" (optFlag "--chown" o) = false := by
  cases o with
  | none => rfl
  | some v =>
    show strHasPref "--aws-region"
      (if v == "" then "" else "--chown" ++ " " ++ v) = false
    by_cases hv : (v == "") = true
    · rw [if_pos hv]; rfl
    · rw [if_neg hv]; exact pref_aws_region_chown v

/-- Helper: the aws-region flag text never starts an optional rootfs
flag phrase. -/
theorem pref_aws_region_optRootfs (o : Option String) :
    strHasPref "--aws-region" (optFlag "--rootfs" o) = false := by
  cases o with
  | none => rfl
  | some v =>
    show strHasPref "--aws-region"
      (if v == "" then "" else "--rootfs" ++ " " ++ v) = false
    by_cases hv : (v == "") = true
    · rw [if_pos hv]; rfl
    · rw [if_neg hv]; exact pref_aws_region_rootfs v

/-- Helper: every element of the type-phrase list is a type flag. -/
theorem mem_bibTypeArgs_shape (opts : BootcImageBuilderOptions) (s : String)
    (h : s ∈ bibTypeArgs opts) : ∃ t, s = "--type " ++ t := by
  unfold bibTypeArgs at h
  cases hty2 : opts.types with
  | none => rw [hty2] at h; cases h
  | some ts =>
    rw [hty2] at h
    have h2 : s ∈ (if 0 < ts.length then
        (ts.filter (fun t => truthy (jsTrim t))).map (fun t => "--type " ++ t)
      else []) := h
    by_cases hl : 0 < ts.length
    · rw [if_pos hl] at h2
      obtain ⟨t, _, rfl⟩ := List.mem_map.mp h2
      exact ⟨t, rfl⟩
    · rw [if_neg hl] at h2; cases h2

/-- C2 counterexample: the source triggers the AWS flags on the type
string aws, not ami; with the claimed request types equal to the single
entry ami and AWS options present, no builder argument carries the AWS
bucket flag or the AWS AMI-name flag at all. -/
theorem claimC2_counterexample :
    optsAmi.types = some ["ami"] ∧
    (bibArgs optsAmi).all (fun s => !(strHasPref "--aws-bucket" s)) = true ∧
    (bibArgs optsAmi).all (fun s => !(strHasPref "--aws-ami-name" s)) = true := by
  decide

/-- C2 (amended): for every request whose type set includes the
flag-triggering type aws with AWS options AMIName x and BucketName y and
no region, the builder argument list carries the bucket flag with value
y immediately followed by the ami-name flag with value x (then the empty
region placeholder and the trailing image), and no element of the list
starts with the aws-region flag (given that the pass-through image and
additional-argument strings do not themselves start with it). -/
theorem claimC2 (opts : BootcImageBuilderOptions)
    (hty : typesIncludesAws opts = true)
    (haws : opts.awsOptions = some ⟨"x", "y", none⟩)
    (himg : strHasPref "--aws-region" opts.image = false)
    (hadd : strHasPref "--aws-region" (opts.additionalArgs.getD "") = false) :
    bibArgs opts =
      ["build", "--output /output", tlsItem opts,
       optFlag "--chown" opts.chown, optFlag "--rootfs" opts.rootfs,
       opts.additionalArgs.getD ""]
      ++ bibTypeArgs opts
      ++ ["--aws-bucket y", "--aws-ami-name x", ""] ++ [opts.image] ∧
    ∀ s ∈ bibArgs opts, strHasPref "--aws-region" s = false := by
  have hform : bibArgs opts =
      ["build", "--output /output", tlsItem opts,
       optFlag "--chown" opts.chown, optFlag "--rootfs" opts.rootfs,
       opts.additionalArgs.getD ""]
      ++ bibTypeArgs opts
      ++ ["--aws-bucket y", "--aws-ami-name x", ""] ++ [opts.image] := by
    unfold bibArgs awsBibItems
    rw [hty, haws]
    rfl
  refine ⟨hform, ?_⟩
  intro s hs
  rw [hform] at hs
  rcases List.mem_append.mp hs with h1 | h2
  · rcases List.mem_append.mp h1 with h3 | h4
    · rcases List.mem_append.mp h3 with h5 | h6
      · simp only [List.mem_cons, List.not_mem_nil, or_false] at h5
        rcases h5 with rfl | rfl | rfl | rfl | rfl | rfl
        · decide
        · decide
        · unfold tlsItem
          cases opts.tlsVerify
          · decide
          · decide
        · exact pref_aws_region_optChown opts.chown
        · exact pref_aws_region_optRootfs opts.rootfs
        · exact hadd
      · obtain ⟨t, rfl⟩ := mem_bibTypeArgs_shape opts s h6
        exact pref_aws_region_type t
    · simp only [List.mem_cons, List.not_mem_nil, or_false] at h4
      rcases h4 with rfl | rfl | rfl
      · decide
      · decide
      · decide
  · simp only [List.mem_cons, List.not_mem_nil, or_false] at h2
    subst h2
    exact himg

/-- C2 witness: the amended theorem at the concrete aws-typed scenario
request. -/
theorem claimC2_witness :
    bibArgs optsAws =
      ["build", "--output /output", tlsItem optsAws,
       optFlag "--chown" optsAws.chown, optFlag "--rootfs" optsAws.rootfs,
       optsAws.additionalArgs.getD ""]
      ++ bibTypeArgs optsAws
      ++ ["--aws-bucket y", "--aws-ami-name x", ""] ++ [optsAws.image] ∧
    ∀ s ∈ bibArgs optsAws, strHasPref "--aws-region" s = false :=
  claimC2 optsAws rfl rfl rfl rfl
